import Mathlib

/-
  Verification of the CSV encoder at the core of the react-csv-export-hook
  repository.  The encoder (`generateCsv` in src/useCsvExport.ts, repeated
  verbatim in src/useCsvExportNative.ts and in the useCsvExportNext hook)
  turns an array of flat key-value records into a CSV text.  We embed the
  JavaScript routine shallowly: JavaScript values that can appear in a
  record field become the inductive `JsValue`, a record becomes an
  association list, an array element that may be `null`/`undefined`
  becomes `Option`, and the whole hook argument
  (`data : T[] | null | undefined`, or a non-array at runtime) becomes
  `CsvInput`.
-/

namespace CsvExportHook

/-- A JavaScript value that can occur in a field of an exported record:
`null`, `undefined`, a string, an integer number, or a boolean. -/
inductive JsValue where
  | vNull
  | vUndefined
  | vStr (s : String)
  | vInt (n : Int)
  | vBool (b : Bool)
  deriving DecidableEq, Repr

/-- The JavaScript loose test `value != null`, which is `false` exactly for
`null` and `undefined`. -/
def JsValue.isNullish : JsValue → Bool
  | .vNull => true
  | .vUndefined => true
  | _ => false

/-- The JavaScript conversion `String(value)` on the values of `JsValue`. -/
def jsString : JsValue → String
  | .vNull => "null"
  | .vUndefined => "undefined"
  | .vStr s => s
  | .vInt n => toString n
  | .vBool b => if b then "true" else "false"

/-- A JavaScript object used as a record: an association list from own key
to value, in insertion order (JavaScript objects never hold the same key
twice). -/
abbrev JsObject := List (String × JsValue)

/-- One element of the data array.  `none` models an element that is
`null` or `undefined` at runtime; `some fields` models an object. -/
abbrev Row := Option JsObject

/-- The hook argument `data : T[] | null | undefined`: `nullish` for
`null`/`undefined`, `notArray` for a runtime non-array value (both fail
the `Array.isArray(data)` test), `arr rows` for an array. -/
inductive CsvInput where
  | nullish
  | notArray
  | arr (rows : List Row)
  deriving DecidableEq, Repr

/-- JavaScript `Array.prototype.join(sep)` on a list of strings. -/
def jsJoin (sep : String) : List String → String
  | [] => ""
  | [s] => s
  | s :: rest => s ++ sep ++ jsJoin sep rest

/-- The own keys of an object in insertion order: `Object.keys(fields)`. -/
def objectKeys (fields : JsObject) : List String := fields.map Prod.fst

/-- Property access `row?.[h]`: `undefined` when the row is nullish or the
key is absent, otherwise the stored value. -/
def getProp : Row → String → JsValue
  | none, _ => JsValue.vUndefined
  | some fields, h => (fields.lookup h).getD JsValue.vUndefined

/-- The regular-expression test applied inside `escapeCsvValue`:
whether the string contains a double quote, a comma, or a newline. -/
def needsQuoting (s : String) : Bool :=
  s.data.any fun c => c == '"' || c == ',' || c == '\n'

/-- The replacement of every double quote by two double quotes, on the
character list: the effect of `strValue.replace(/"/g, '""')`. -/
def doubleQuotesAux : List Char → List Char
  | [] => []
  | c :: cs =>
    if c = '"' then '"' :: '"' :: doubleQuotesAux cs
    else c :: doubleQuotesAux cs

/-- The replacement of every double quote by two double quotes, on a
string. -/
def doubleQuotes (s : String) : String := String.mk (doubleQuotesAux s.data)

/-- The local `strValue` of `escapeCsvValue`:
`value != null ? String(value) : ""`. -/
def strValueOf (v : JsValue) : String :=
  if v.isNullish then "" else jsString v

/-- The inner `escapeCsvValue` of the hooks: a nullish value becomes the
empty string; the string form is wrapped in double quotes with internal
quotes doubled exactly when it contains a quote, a comma, or a newline. -/
def escapeCsvValue (v : JsValue) : String :=
  if needsQuoting (strValueOf v) then "\"" ++ doubleQuotes (strValueOf v) ++ "\""
  else strValueOf v

/-- The headers of the encoder: `Object.keys(data?.[0] ?? {})` seen from
inside the array branch. -/
def headersOf : List Row → List String
  | [] => []
  | none :: _ => []
  | some fields :: _ => objectKeys fields

/-- A header cell as the code emits it: the template
string quote-name-quote, with no doubling of internal quotes. -/
def quoteHeader (h : String) : String := "\"" ++ h ++ "\""

/-- The `csvHeader` local of `generateCsv`: quoted header names joined by
commas, followed by one newline. -/
def csvHeaderLine (headers : List String) : String :=
  jsJoin "," (headers.map quoteHeader) ++ "\n"

/-- One data line of `generateCsv`: the row's value at each header,
escaped, joined by commas. -/
def csvRowLine (headers : List String) (r : Row) : String :=
  jsJoin "," (headers.map fun h => escapeCsvValue (getProp r h))

/-- The `generateCsv` routine of `useCsvExport` (src/useCsvExport.ts,
lines 131-157): empty string unless the input is a non-empty array whose
first element yields a non-empty key list; otherwise the header line
followed by the data lines joined by newlines. -/
def generateCsv : CsvInput → String
  | CsvInput.nullish => ""
  | CsvInput.notArray => ""
  | CsvInput.arr rows =>
    if rows.length = 0 then ""
    else if (headersOf rows).length = 0 then ""
    else csvHeaderLine (headersOf rows) ++
      jsJoin "\n" (rows.map (csvRowLine (headersOf rows)))

/-- The `generateCsv` routine of `useCsvExportNative`
(src/useCsvExportNative.ts, lines 40-66); its body is character for
character the body of the `useCsvExport` routine. -/
def generateCsvNative : CsvInput → String
  | CsvInput.nullish => ""
  | CsvInput.notArray => ""
  | CsvInput.arr rows =>
    if rows.length = 0 then ""
    else if (headersOf rows).length = 0 then ""
    else csvHeaderLine (headersOf rows) ++
      jsJoin "\n" (rows.map (csvRowLine (headersOf rows)))

/-- `Object.keys(x)` called directly on an array element, as the
`useCsvExportNext` variant does: it throws a `TypeError` when the
element is `null` or `undefined`. -/
def objectKeysOrThrow : Row → Except String (List String)
  | none => Except.error "TypeError: cannot convert null or undefined to object"
  | some fields => Except.ok (objectKeys fields)

/-- The `generateCsv` routine of the `useCsvExportNext` hook: identical
to the others except that it computes `Object.keys(data[0])` without the
nullish guard, so a nullish first element throws. -/
def generateCsvNext : CsvInput → Except String String
  | CsvInput.nullish => Except.ok ""
  | CsvInput.notArray => Except.ok ""
  | CsvInput.arr rows =>
    if rows.length = 0 then Except.ok ""
    else
      match objectKeysOrThrow (rows.getD 0 none) with
      | Except.error e => Except.error e
      | Except.ok headers =>
        if headers.length = 0 then Except.ok ""
        else Except.ok (csvHeaderLine headers ++
          jsJoin "\n" (rows.map (csvRowLine headers)))

/-- The cell text as the specification describes it before escaping: the
empty string when the record's value at the header is null or absent,
otherwise the canonical textual representation of the value. -/
def specTextOf : JsValue → String
  | JsValue.vNull => ""
  | JsValue.vUndefined => ""
  | v => jsString v

/-- The specification's cell for row `r` at header `h`. -/
def specCellText (r : Row) (h : String) : String := specTextOf (getProp r h)

/-- The escaping transformation on an already computed cell string. -/
def csvEscape (s : String) : String :=
  if needsQuoting s then "\"" ++ doubleQuotes s ++ "\"" else s

/-- Whether the first element of the data array, when one exists, is an
actual record rather than a nullish value; every well-typed record set
satisfies this. -/
def firstElementIsRecord : CsvInput → Bool
  | CsvInput.arr (none :: _) => false
  | _ => true

/-- Unfolding of the encoder on a non-empty array whose derived header
list is non-empty. -/
lemma generateCsv_arr_cons (r0 : Row) (rest : List Row)
    (hne : headersOf (r0 :: rest) ≠ []) :
    generateCsv (CsvInput.arr (r0 :: rest)) =
      csvHeaderLine (headersOf (r0 :: rest)) ++
        jsJoin "\n" ((r0 :: rest).map (csvRowLine (headersOf (r0 :: rest)))) := by
  have h2 : (headersOf (r0 :: rest)).length ≠ 0 := by
    simpa [List.length_eq_zero] using hne
  simp [generateCsv, h2]

/-- The code's escaping of a looked-up value agrees with escaping the
specification's cell text. -/
lemma escapeCsvValue_eq_spec (v : JsValue) :
    escapeCsvValue v = csvEscape (specTextOf v) := by
  cases v <;> rfl

/-- The regular-expression test holds exactly when the string contains a
double quote, a comma, or a newline. -/
lemma needsQuoting_iff (s : String) :
    needsQuoting s = true ↔ ('"' ∈ s.data ∨ ',' ∈ s.data ∨ '\n' ∈ s.data) := by
  unfold needsQuoting
  rw [List.any_eq_true]
  constructor
  · rintro ⟨c, hc, hb⟩
    simp only [Bool.or_eq_true, beq_iff_eq] at hb
    rcases hb with (h | h) | h
    · exact Or.inl (h ▸ hc)
    · exact Or.inr (Or.inl (h ▸ hc))
    · exact Or.inr (Or.inr (h ▸ hc))
  · rintro (h | h | h)
    · exact ⟨_, h, by simp⟩
    · exact ⟨_, h, by simp⟩
    · exact ⟨_, h, by simp⟩

/-- A string beginning with a header line is never the empty string,
because the header line ends in a newline character. -/
lemma headerLine_append_ne_empty (hs : List String) (t : String) :
    csvHeaderLine hs ++ t ≠ "" := by
  intro h
  have hlen := congrArg String.length h
  rw [String.length_append, csvHeaderLine, String.length_append] at hlen
  have h1 : ("\n" : String).length = 1 := rfl
  have h2 : ("" : String).length = 0 := rfl
  rw [h1, h2] at hlen
  omega

/-- C1: when the first element of the array is a record with at least one
own key, the output consists of a header line built from exactly the own
keys of that first record in their original order, and every record
(including later ones) is projected onto that header list: each cell is
the escaped form of the specification's cell text, which is empty for a
null or absent value and the canonical textual representation otherwise;
keys of later records outside the header list never contribute. -/
theorem csv_header_from_first_record_projection (fs : JsObject) (rest : List Row)
    (hne : objectKeys fs ≠ []) :
    generateCsv (CsvInput.arr (some fs :: rest)) =
      jsJoin "," ((objectKeys fs).map quoteHeader) ++ "\n" ++
        jsJoin "\n" ((some fs :: rest).map fun r =>
          jsJoin "," ((objectKeys fs).map fun h => csvEscape (specCellText r h))) := by
  rw [generateCsv_arr_cons (some fs) rest hne]
  have hcell : ∀ r : Row, csvRowLine (objectKeys fs) r =
      jsJoin "," ((objectKeys fs).map fun h => csvEscape (specCellText r h)) := by
    intro r
    unfold csvRowLine
    congr 1
    exact List.map_congr_left fun h _ => escapeCsvValue_eq_spec (getProp r h)
  have hmap : (some fs :: rest).map (csvRowLine (objectKeys fs)) =
      (some fs :: rest).map fun r =>
        jsJoin "," ((objectKeys fs).map fun h => csvEscape (specCellText r h)) :=
    List.map_congr_left fun r _ => hcell r
  rw [show headersOf (some fs :: rest) = objectKeys fs from rfl, hmap,
    csvHeaderLine, String.append_assoc]

/-- Witness for C1 at the spec's extra-key example `[..a:1.., ..a:2,b:9..]`. -/
theorem csv_header_from_first_record_projection_check :
    objectKeys [("a", JsValue.vInt 1)] ≠ [] ∧
    generateCsv (CsvInput.arr (some [("a", JsValue.vInt 1)] ::
        [some [("a", JsValue.vInt 2), ("b", JsValue.vInt 9)]])) =
      jsJoin "," ((objectKeys [("a", JsValue.vInt 1)]).map quoteHeader) ++ "\n" ++
        jsJoin "\n" ((some [("a", JsValue.vInt 1)] ::
            [some [("a", JsValue.vInt 2), ("b", JsValue.vInt 9)]]).map fun r =>
          jsJoin "," ((objectKeys [("a", JsValue.vInt 1)]).map fun h =>
            csvEscape (specCellText r h))) :=
  ⟨by decide, csv_header_from_first_record_projection _ _ (by decide)⟩

/-- C2: on input passing the usable-data checks, the output is the header
line, one newline, then the data lines joined pairwise by newlines, with
nothing appended after the last data line; cells inside each line are
joined by single commas (inside `csvRowLine` and the header join). -/
theorem csv_output_line_assembly (r0 : Row) (rest : List Row)
    (hne : headersOf (r0 :: rest) ≠ []) :
    generateCsv (CsvInput.arr (r0 :: rest)) =
      jsJoin "," ((headersOf (r0 :: rest)).map quoteHeader) ++ "\n" ++
        jsJoin "\n" ((r0 :: rest).map (csvRowLine (headersOf (r0 :: rest)))) := by
  rw [generateCsv_arr_cons r0 rest hne, csvHeaderLine, String.append_assoc]

/-- Witness for C2 at the spec's missing-key example `[..a:1,b:2.., ..a:3..]`. -/
theorem csv_output_line_assembly_check :
    headersOf (some [("a", JsValue.vInt 1), ("b", JsValue.vInt 2)] ::
        [some [("a", JsValue.vInt 3)]]) ≠ [] ∧
    generateCsv (CsvInput.arr (some [("a", JsValue.vInt 1), ("b", JsValue.vInt 2)] ::
        [some [("a", JsValue.vInt 3)]])) =
      jsJoin "," ((headersOf (some [("a", JsValue.vInt 1), ("b", JsValue.vInt 2)] ::
          [some [("a", JsValue.vInt 3)]])).map quoteHeader) ++ "\n" ++
        jsJoin "\n" ((some [("a", JsValue.vInt 1), ("b", JsValue.vInt 2)] ::
            [some [("a", JsValue.vInt 3)]]).map
          (csvRowLine (headersOf (some [("a", JsValue.vInt 1), ("b", JsValue.vInt 2)] ::
            [some [("a", JsValue.vInt 3)]])))) :=
  ⟨by decide, csv_output_line_assembly _ _ (by decide)⟩

/-- C3: a cell whose string form contains a double quote, a comma, or a
newline is emitted wrapped in double quotes with internal quotes doubled,
and any other cell is emitted unchanged, never quoted; in particular the
spec's round-trip example evaluates as stated. -/
theorem csv_cell_escaping_rule (v : JsValue) :
    (escapeCsvValue v =
      if '"' ∈ (strValueOf v).data ∨ ',' ∈ (strValueOf v).data ∨
          '\n' ∈ (strValueOf v).data
        then "\"" ++ doubleQuotes (strValueOf v) ++ "\"" else strValueOf v) ∧
    escapeCsvValue (JsValue.vStr "He said \"hi\", then left\n") =
      "\"He said \"\"hi\"\", then left\n\"" := by
  constructor
  · by_cases h : needsQuoting (strValueOf v) = true
    · rw [if_pos ((needsQuoting_iff _).mp h)]
      simp [escapeCsvValue, h]
    · rw [if_neg fun hc => h ((needsQuoting_iff _).mpr hc)]
      rw [Bool.not_eq_true] at h
      simp [escapeCsvValue, h]
  · decide

/-- Counterexample to C4: the code emits header names wrapped in quotes
without doubling internal quotes, so for the single-key record whose key
contains a double quote the output differs from the claim's prediction. -/
theorem csv_header_quotes_not_doubled :
    generateCsv (CsvInput.arr [some [("a\"b", JsValue.vInt 1)]]) = "\"a\"b\"\n1" ∧
    generateCsv (CsvInput.arr [some [("a\"b", JsValue.vInt 1)]]) ≠
      "\"" ++ doubleQuotes "a\"b" ++ "\"" ++ "\n" ++ "1" :=
  ⟨by decide, by decide⟩

/-- C4 as amended: every header cell is the header name unconditionally
wrapped in double quotes with internal double quotes left unchanged (not
doubled), and for every input whose first record has at least one own
key the output starts with that header line followed by a newline. -/
theorem csv_header_cells_verbatim_quoted (fs : JsObject) (rest : List Row)
    (hne : objectKeys fs ≠ []) :
    ∃ t : String, generateCsv (CsvInput.arr (some fs :: rest)) =
      jsJoin "," ((objectKeys fs).map fun h => "\"" ++ h ++ "\"") ++ "\n" ++ t := by
  refine ⟨jsJoin "\n" ((some fs :: rest).map (csvRowLine (objectKeys fs))), ?_⟩
  rw [generateCsv_arr_cons (some fs) rest hne]
  rw [show headersOf (some fs :: rest) = objectKeys fs from rfl, csvHeaderLine]
  rfl

/-- Witness for the amended C4 at a record whose key holds a quote. -/
theorem csv_header_cells_verbatim_quoted_check :
    objectKeys [("x\"y", JsValue.vStr "v")] ≠ [] ∧
    ∃ t : String, generateCsv (CsvInput.arr (some [("x\"y", JsValue.vStr "v")] :: [])) =
      jsJoin "," ((objectKeys [("x\"y", JsValue.vStr "v")]).map fun h =>
        "\"" ++ h ++ "\"") ++ "\n" ++ t :=
  ⟨by decide, csv_header_cells_verbatim_quoted _ _ (by decide)⟩

/-- C5: the encoder returns the empty text value exactly when the input
has no usable data, namely when the input is nullish, not an array, an
empty array, or an array whose derived header list (the own keys of the
first element, empty when that element is nullish) is empty; the
encoding itself is a total function, so no error is ever raised. -/
theorem csv_empty_output_iff_no_usable_data (d : CsvInput) :
    generateCsv d = "" ↔
      d = CsvInput.nullish ∨ d = CsvInput.notArray ∨ d = CsvInput.arr [] ∨
        ∃ rows, d = CsvInput.arr rows ∧ headersOf rows = [] := by
  cases d with
  | nullish => simp [generateCsv]
  | notArray => simp [generateCsv]
  | arr rows =>
    cases rows with
    | nil => simp [generateCsv]
    | cons r0 rest =>
      constructor
      · intro h
        by_cases hh : headersOf (r0 :: rest) = []
        · exact Or.inr (Or.inr (Or.inr ⟨r0 :: rest, rfl, hh⟩))
        · exact absurd h (by
            rw [generateCsv_arr_cons r0 rest hh]
            exact headerLine_append_ne_empty _ _)
      · rintro (h | h | h | ⟨rows, hEq, hkeys⟩)
        · exact absurd h (by simp)
        · exact absurd h (by simp)
        · exact absurd h (by simp)
        · cases hEq
          simp [generateCsv, hkeys]

/-- C6: the literal two-record scenario from the documentation encodes to
exactly the documented text, headers quoted, data cells unquoted, and no
trailing newline. -/
theorem csv_literal_scenario :
    generateCsv (CsvInput.arr [
      some [("name", JsValue.vStr "John"), ("age", JsValue.vInt 30),
        ("city", JsValue.vStr "New York")],
      some [("name", JsValue.vStr "Jane"), ("age", JsValue.vInt 25),
        ("city", JsValue.vStr "Los Angeles")]]) =
      "\"name\",\"age\",\"city\"\nJohn,30,New York\nJane,25,Los Angeles" := by
  decide

/-- C7: on every input whose first element, when present, is an actual
record (which every well-typed record set satisfies), the three embedded
variants produce the same text: the `useCsvExportNative` routine equals
the `useCsvExport` routine, and the `useCsvExportNext` routine returns
that same text without throwing. -/
theorem csv_variants_extensionally_equal (d : CsvInput)
    (h : firstElementIsRecord d = true) :
    generateCsvNative d = generateCsv d ∧
    generateCsvNext d = Except.ok (generateCsv d) := by
  cases d with
  | nullish => exact ⟨rfl, rfl⟩
  | notArray => exact ⟨rfl, rfl⟩
  | arr rows =>
    cases rows with
    | nil => exact ⟨rfl, rfl⟩
    | cons r0 rest =>
      cases r0 with
      | none => simp [firstElementIsRecord] at h
      | some fs =>
        refine ⟨rfl, ?_⟩
        by_cases hk : (objectKeys fs).length = 0
        · simp [generateCsvNext, generateCsv, headersOf, objectKeysOrThrow, hk]
        · simp [generateCsvNext, generateCsv, headersOf, objectKeysOrThrow, hk]

/-- Witness for C7 at a two-element input whose second element is null. -/
theorem csv_variants_extensionally_equal_check :
    firstElementIsRecord (CsvInput.arr [some [("k", JsValue.vInt 7)], none]) = true ∧
    (generateCsvNative (CsvInput.arr [some [("k", JsValue.vInt 7)], none]) =
        generateCsv (CsvInput.arr [some [("k", JsValue.vInt 7)], none]) ∧
      generateCsvNext (CsvInput.arr [some [("k", JsValue.vInt 7)], none]) =
        Except.ok (generateCsv (CsvInput.arr [some [("k", JsValue.vInt 7)], none]))) :=
  ⟨by decide, csv_variants_extensionally_equal _ (by decide)⟩

/-- C8: the encoder is deterministic; its output depends on nothing but
the input value, so two invocations on the same record set yield the
same text. -/
theorem csv_encode_deterministic (d₁ d₂ : CsvInput) (h : d₁ = d₂) :
    generateCsv d₁ = generateCsv d₂ := by
  rw [h]

/-- Witness for C8 at a concrete one-record input. -/
theorem csv_encode_deterministic_check :
    CsvInput.arr [some [("k", JsValue.vBool true)]] =
      CsvInput.arr [some [("k", JsValue.vBool true)]] ∧
    generateCsv (CsvInput.arr [some [("k", JsValue.vBool true)]]) =
      generateCsv (CsvInput.arr [some [("k", JsValue.vBool true)]]) :=
  ⟨rfl, csv_encode_deterministic _ _ rfl⟩

/-- C9: a nullish later element never makes the encoder fail; its data
line is the join of one empty cell per header, and the whole document is
still assembled around it. -/
theorem csv_null_row_all_empty_cells (fs : JsObject) (mid post : List Row)
    (hne : objectKeys fs ≠ []) :
    csvRowLine (objectKeys fs) none =
      jsJoin "," (List.replicate (objectKeys fs).length "") ∧
    generateCsv (CsvInput.arr (some fs :: mid ++ none :: post)) =
      csvHeaderLine (objectKeys fs) ++
        jsJoin "\n" ((some fs :: mid ++ none :: post).map
          (csvRowLine (objectKeys fs))) := by
  constructor
  · unfold csvRowLine
    congr 1
    have hfun : (fun h : String => escapeCsvValue (getProp none h)) =
        fun _ : String => "" := by
      funext h
      rfl
    rw [hfun]
    exact List.map_const' _ _
  · exact generateCsv_arr_cons (some fs) (mid ++ none :: post) hne

/-- Witness for C9 with a single null element after the first record. -/
theorem csv_null_row_all_empty_cells_check :
    objectKeys [("a", JsValue.vInt 1)] ≠ [] ∧
    (csvRowLine (objectKeys [("a", JsValue.vInt 1)]) none =
      jsJoin "," (List.replicate (objectKeys [("a", JsValue.vInt 1)]).length "") ∧
    generateCsv (CsvInput.arr (some [("a", JsValue.vInt 1)] :: [] ++ none :: [])) =
      csvHeaderLine (objectKeys [("a", JsValue.vInt 1)]) ++
        jsJoin "\n" ((some [("a", JsValue.vInt 1)] :: [] ++ none :: []).map
          (csvRowLine (objectKeys [("a", JsValue.vInt 1)])))) :=
  ⟨by decide, csv_null_row_all_empty_cells _ _ _ (by decide)⟩

/-- C10: the non-empty output is the newline join of the header line and
one line per record, where the header line joins exactly one quoted cell
per key of the first record and every data line joins exactly one
escaped cell per such key: every row of the document has the same number
of cells. -/
theorem csv_uniform_column_count (fs : JsObject) (rest : List Row)
    (hne : objectKeys fs ≠ []) :
    generateCsv (CsvInput.arr (some fs :: rest)) =
      jsJoin "\n" (jsJoin "," ((objectKeys fs).map quoteHeader) ::
        (some fs :: rest).map (csvRowLine (objectKeys fs))) ∧
    ((objectKeys fs).map quoteHeader).length = (objectKeys fs).length ∧
    ∀ r : Row, ((objectKeys fs).map fun h => escapeCsvValue (getProp r h)).length =
      (objectKeys fs).length := by
  refine ⟨?_, List.length_map _ _, fun r => List.length_map _ _⟩
  rw [generateCsv_arr_cons (some fs) rest hne]
  rfl

/-- Witness for C10 at a two-key record followed by a null element. -/
theorem csv_uniform_column_count_check :
    objectKeys [("a", JsValue.vInt 1), ("b", JsValue.vNull)] ≠ [] ∧
    (generateCsv (CsvInput.arr (some [("a", JsValue.vInt 1), ("b", JsValue.vNull)] :: [none])) =
      jsJoin "\n" (jsJoin ","
          ((objectKeys [("a", JsValue.vInt 1), ("b", JsValue.vNull)]).map quoteHeader) ::
        (some [("a", JsValue.vInt 1), ("b", JsValue.vNull)] :: [none]).map
          (csvRowLine (objectKeys [("a", JsValue.vInt 1), ("b", JsValue.vNull)]))) ∧
    ((objectKeys [("a", JsValue.vInt 1), ("b", JsValue.vNull)]).map quoteHeader).length =
      (objectKeys [("a", JsValue.vInt 1), ("b", JsValue.vNull)]).length ∧
    ∀ r : Row, ((objectKeys [("a", JsValue.vInt 1), ("b", JsValue.vNull)]).map fun h =>
        escapeCsvValue (getProp r h)).length =
      (objectKeys [("a", JsValue.vInt 1), ("b", JsValue.vNull)]).length) :=
  ⟨by decide, csv_uniform_column_count _ _ (by decide)⟩

end CsvExportHook
